import Mathlib

set_option linter.unnecessarySimpa false

/-
Verification development for the SNAP experiment launcher
(src/src/launcher.py).  The file shallowly embeds the session
controller of class MainApp (the lifecycle methods load_module,
start_module, cancel_module, prune_module, load_config, the setup
handler), the remote-control command path (the TCP request handler
enqueues raw byte lines; the per-frame loop stringifies and matches
them), and the per-frame drain loop _main_loop_tick.

Modelling conventions:
- Module instances are opaque capability objects; we record the calls
  made on them (start/cancel/prune/tick) as an event trace, tagged with
  an allocation identity.  Module construction is recorded as a
  `loadedMod` event.
- Python exceptions that escape a method are an `err` component of the
  result; an escaping error aborts the drain loop, skips the module
  tick, and (in the real program) propagates out of taskMgr.step() to
  the top-level try/except, which ends the process.
- Only error-level prints are modelled, as a `Log` trace.
- Engine-side effects (set_defaults, the shared engine lock, prints of
  progress messages) have no session-state content and are not modelled.
-/

namespace Launcher

/-- Whitespace predicate of Python str.strip / bytes.strip
(ASCII subset; the protocol lines contain only ASCII). -/
def pyWS (c : Char) : Bool :=
  c == ' ' || c == '\t' || c == '\n' || c == '\r' ||
  c == Char.ofNat 11 || c == Char.ofNat 12

/-- Python s.strip(): drop leading and trailing whitespace. -/
def pyStrip (s : String) : String :=
  String.mk (((s.toList.dropWhile pyWS).reverse.dropWhile pyWS).reverse)

/-- Python s.startswith(pre). -/
def pyStarts (s pre : String) : Bool :=
  pre.toList.isPrefixOf s.toList

/-- Python s.endswith(suf). -/
def pyEnds (s suf : String) : Bool :=
  suf.toList.isSuffixOf s.toList

/-- Python s[n:] (slice from character n). -/
def pyDrop (s : String) (n : Nat) : String :=
  String.mk (s.toList.drop n)

/-- Single-quote character, as used by the Python repr of a bytes object. -/
def squote : String := String.mk [Char.ofNat 39]

/-- Values travelling through the remote-command queue
(MainApp._remote_commands): the keyboard handlers (f1/f2/f5) enqueue
str objects, while ThreadedTCPRequestHandler.handle enqueues the raw
bytes line read from the socket. -/
inductive PyVal where
  | str (s : String)
  | bytes (s : String)
deriving DecidableEq

/-- Python str(v) as computed at the top of the drain loop
(`str(self._remote_commands.get_nowait())`): the identity on str, and
the printable repr `b'...'` for bytes (modelled for payloads without
quote or backslash characters, which covers every protocol line). -/
def pyStr : PyVal → String
  | .str s => s
  | .bytes s => "b" ++ squote ++ s ++ squote

/-- Attribute values in a module instance namespace.  The launcher core
only ever needs integer literals (study-config assignments such as
`x=5`); everything else it stores is opaque. -/
inductive Lit where
  | int (n : Int)
  | obj
deriving DecidableEq

/-- A module instance (the object `self._module.Main()`): an allocation
identity plus the instance `__dict__` used by setup/config assignments.
Attributes the module class sets itself are opaque to the launcher and
are not tracked. -/
structure Instance where
  id : Nat
  attrs : List (String × Lit)
deriving DecidableEq

/-- Session state of MainApp: `self._module` (tracked by name),
`self._instance`, `self._executing`, plus an allocation counter giving
fresh instance identities. -/
structure AppState where
  curModule : Option String
  curInstance : Option Instance
  executing : Bool
  nextId : Nat
deriving DecidableEq

/-- State of MainApp right after `__init__` initialises the fields
(launcher.py lines 297-299), before any load. -/
def initState : AppState := ⟨none, none, false, 0⟩

/-- Calls made on module instances (plus `loadedMod`, recording that a
`load` completed, i.e. Main() was constructed). -/
inductive Event where
  | loadedMod (id : Nat)
  | startCall (id : Nat)
  | cancelCall (id : Nat)
  | pruneCall (id : Nat)
  | tickCall (id : Nat)
deriving DecidableEq

/-- Error-level prints of the embedded methods. -/
inductive Log where
  | moduleNotFound (name : String)
  | configNotFound (name : String)
  | configError (name : String)
deriving DecidableEq

/-- Exceptions escaping an embedded method: import failure re-raised by
load_module, and a failure of the Main() constructor. -/
inductive Err where
  | moduleNotFound (name : String)
  | constructError (name : String)
deriving DecidableEq

/-- Result of an import attempt for a module name: `missing` when
__import__ fails even after the modules-folder retry (ModuleNotFoundError
or ImportError), `constructFails` when the import succeeds but Main()
raises, `ok` otherwise. -/
inductive ModSpec where
  | missing
  | constructFails
  | ok
deriving DecidableEq

/-- External environment: module resolution (the PYTHONPATH plus
modules-folder search of load_module collapsed to one verdict per name)
and the two file-resolution probes of load_config
(os.path.exists(name), then os.path.exists(join(studypath, name))),
returning file contents as a list of lines. -/
structure Env where
  reg : String → ModSpec
  cwd : String → Option (List String)
  study : String → Option (List String)

/-- Result of one embedded operation: the state after it, the module
calls it made, the errors it printed, and the exception escaping it
(none if it returned normally). -/
structure Res where
  s : AppState
  evs : List Event
  logs : List Log
  err : Option Err
deriving DecidableEq

def Res.ofPair (p : AppState × List Event) : Res := ⟨p.1, p.2, [], none⟩

def Res.noop (s : AppState) : Res := ⟨s, [], [], none⟩

/-- Attributes the launcher itself assigns right after Main()
construction (`_make_up_for_lost_time`, `_oscclient`); their values are
opaque to the session core. -/
def mkInstance (n : Nat) : Instance :=
  ⟨n, [("_make_up_for_lost_time", Lit.obj), ("_oscclient", Lit.obj)]⟩

/-- MainApp.prune_module: if an instance exists, call its prune();
exceptions from prune() are caught and logged locally.  Note that the
method changes no field of the session state — in particular
self._instance is NOT cleared and self._executing is untouched. -/
def prune_module (s : AppState) : AppState × List Event :=
  match s.curInstance with
  | none => (s, [])
  | some i => (s, [Event.pruneCall i.id])

/-- MainApp.cancel_module: call instance.cancel() only when an instance
exists and self._executing holds; self._executing is reset to False
unconditionally. -/
def cancel_module (s : AppState) : AppState × List Event :=
  let evs :=
    match s.curInstance with
    | some i => if s.executing then [Event.cancelCall i.id] else []
    | none => []
  ({ s with executing := false }, evs)

/-- MainApp.start_module: if an instance exists, first cancel_module(),
then instance.start(), then set self._executing.  Exceptions from
start() would propagate (the module methods are modelled as returning
normally; the launcher installs no handler here). -/
def start_module (s : AppState) : AppState × List Event :=
  match s.curInstance with
  | none => (s, [])
  | some i =>
    let (s1, e1) := cancel_module s
    ({ s1 with executing := true }, e1 ++ [Event.startCall i.id])

/-- MainApp.load_module: guarded by `name is not None and len(name) > 0`.
If an instance exists, prune_module() first; then set_defaults()
(engine-side only); then import the module — on failure the exception is
re-raised (`raise err`) after printing the not-found message, with
self._module / self._instance / self._executing left as they were.
When the import succeeds self._module is assigned, then Main() is constructed; a
constructor failure escapes with self._module already updated.  On full
success the new instance replaces self._instance and gets the two
launcher attributes; self._executing is not touched. -/
def load_module (env : Env) (s : AppState) (name : String) : Res :=
  if 0 < name.length then
    let pr : AppState × List Event :=
      match s.curInstance with
      | some _ => prune_module s
      | none => (s, [])
    match env.reg name with
    | ModSpec.missing =>
      ⟨pr.1, pr.2, [Log.moduleNotFound name], some (Err.moduleNotFound name)⟩
    | ModSpec.constructFails =>
      ⟨{ pr.1 with curModule := some name }, pr.2, [],
        some (Err.constructError name)⟩
    | ModSpec.ok =>
      ⟨{ pr.1 with
          curModule := some name,
          curInstance := some (mkInstance pr.1.nextId),
          nextId := pr.1.nextId + 1 },
        pr.2 ++ [Event.loadedMod pr.1.nextId], [], none⟩
  else Res.noop s

/-- Modelled from the spec: the attribute-assignment collaborator
(Python `exec` over the instance `__dict__`) is out of scope of the
core; per the contract in the spec it applies a semicolon-separated
list of `key=value` statements with a restricted literal grammar
(integers here).  Parsing is all-or-nothing, mirroring that exec
compiles the whole statement string before running it; `none` models a
raised exception. -/
def parseNatDigits (cs : List Char) : Option Nat :=
  if cs = [] then none
  else
    cs.foldl
      (fun acc c =>
        acc.bind fun a =>
          if c.isDigit then some (a * 10 + (c.toNat - 48)) else none)
      (some 0)

/-- Integer literal parser of the assignment collaborator (see
parseNatDigits): an optional leading minus sign then digits. -/
def parseIntLit (cs : List Char) : Option Int :=
  match cs with
  | '-' :: rest => (parseNatDigits rest).map (fun n => -(n : Int))
  | _ => (parseNatDigits cs).map Int.ofNat

/-- Assignment into an attribute namespace: replace the binding of the
key if present, else append it. -/
def setAttr (k : String) (v : Lit) : List (String × Lit) → List (String × Lit)
  | [] => [(k, v)]
  | (k', v') :: rest =>
    if k' = k then (k, v) :: rest else (k', v') :: setAttr k v rest

/-- Splitting a character list at a separator character (used for the
semicolon-separated assignment lists). -/
def splitChar (sep : Char) : List Char → List (List Char)
  | [] => [[]]
  | c :: rest =>
    let r := splitChar sep rest
    if c = sep then [] :: r
    else
      match r with
      | [] => [[c]]
      | piece :: more => (c :: piece) :: more

/-- Application of one `key=value` piece to a namespace (see the
collaborator comment on parseNatDigits): a blank piece is a no-op; a
piece must split at its first `=` into a nonempty key and an integer
literal, else the whole statement fails. -/
def applyAssign (piece : List Char) (d : List (String × Lit)) :
    Option (List (String × Lit)) :=
  let p := (piece.dropWhile pyWS).reverse.dropWhile pyWS |>.reverse
  if p = [] then some d
  else
    match p.span (fun c => ¬ c = '=') with
    | (lhs, '=' :: rhs) =>
      let k := (lhs.dropWhile pyWS).reverse.dropWhile pyWS |>.reverse
      if k = [] then none
      else
        match parseIntLit ((rhs.dropWhile pyWS).reverse.dropWhile pyWS |>.reverse) with
        | some v => some (setAttr (String.mk k) (Lit.int v) d)
        | none => none
    | _ => none

/-- One exec'd statement string (a setup argument or one config line):
split on semicolons and apply every piece, all-or-nothing. -/
def execAssigns (stmt : String) (d : List (String × Lit)) :
    Option (List (String × Lit)) :=
  (splitChar ';' stmt.toList).foldl
    (fun acc piece => acc.bind (applyAssign piece)) (some d)

/-- Remaining-line loop of load_config: each line is exec'd against
`self._instance.__dict__`.  The Bool result records that an exception
was raised (to be caught by load_config's handler): either the
assignment failed, or there is no instance at all (evaluating
`self._instance.__dict__` raises AttributeError).  Lines after a
failure are not executed. -/
def execLines : AppState → List String → AppState × Bool
  | s, [] => (s, false)
  | s, line :: rest =>
    match s.curInstance with
    | none => (s, true)
    | some i =>
      match execAssigns line i.attrs with
      | none => (s, true)
      | some a => execLines { s with curInstance := some { i with attrs := a } } rest

/-- File resolution of load_config: os.path.exists(name) in the working
directory, else os.path.join(self._opts.studypath, name). -/
def resolveFile (env : Env) (name : String) : Option (List String) :=
  match env.cwd name with
  | some lines => some lines
  | none => env.study name

/-- MainApp.load_config: resolve the file (working directory, then
study path); if not found, print and return with nothing changed.
Otherwise load the module named on the stripped first line, then exec
every remaining line against the instance namespace, in file order.
The whole body runs under a try/except that catches any exception
(including a load_module failure) and prints the config-error message. -/
def load_config (env : Env) (s : AppState) (name : String) : Res :=
  match resolveFile env name with
  | none => ⟨s, [], [Log.configNotFound name], none⟩
  | some lines =>
    let r := load_module env s (pyStrip (lines.headD ""))
    match r.err with
    | some _ => ⟨r.s, r.evs, r.logs ++ [Log.configError name], none⟩
    | none =>
      let (s2, failed) := execLines r.s lines.tail
      ⟨s2, r.evs, r.logs ++ (if failed then [Log.configError name] else []), none⟩

/-- Setup branch of the drain loop: `exec(cmd[6:], self._instance.__dict__)`
inside `try: ... except: pass` — every failure (including the
AttributeError when no instance is loaded) is swallowed. -/
def setupCmd (s : AppState) (arg : String) : Res :=
  match s.curInstance with
  | none => Res.noop s
  | some i =>
    match execAssigns arg i.attrs with
    | none => Res.noop s
    | some a => ⟨{ s with curInstance := some { i with attrs := a } }, [], [], none⟩

/-- Dispatch of one drained queue element, mirroring the if/elif chain
of _main_loop_tick: stringify, strip, then match the verbs in source
order; unknown commands are inert. -/
def applyCmd (env : Env) (s : AppState) (v : PyVal) : Res :=
  let cmd := pyStrip (pyStr v)
  if cmd = "start" then Res.ofPair (start_module s)
  else if cmd = "cancel" ∨ cmd = "stop" then Res.ofPair (cancel_module s)
  else if cmd = "prune" then Res.ofPair (prune_module s)
  else if pyStarts cmd "load " then load_module env s (pyDrop cmd 5)
  else if pyStarts cmd "setup " then setupCmd s (pyDrop cmd 6)
  else if pyStarts cmd "config " then
    if ¬ pyEnds cmd ".cfg" then load_config env s (pyDrop cmd 7 ++ ".cfg")
    else load_config env s (pyDrop cmd 7)
  else Res.noop s

/-- Result of a whole drain (the `while True: get_nowait()` loop),
extended with the commands it actually applied (`processed`) and the
queue contents it left behind for later ticks (`leftover`). -/
structure DrainRes where
  s : AppState
  evs : List Event
  logs : List Log
  err : Option Err
  processed : List PyVal
  leftover : List PyVal
deriving DecidableEq

/-- Drain loop of _main_loop_tick once no further producer interleaves:
keep getting and applying commands until the queue is observed empty.
An exception escaping a command application ends the drain (and the
whole tick); the unread queue content survives for later ticks. -/
def drainNil (env : Env) : AppState → List PyVal → DrainRes
  | s, [] => ⟨s, [], [], none, [], []⟩
  | s, v :: rest =>
    let r := applyCmd env s v
    match r.err with
    | some _ => ⟨r.s, r.evs, r.logs, r.err, [v], rest⟩
    | none =>
      let d := drainNil env r.s rest
      ⟨d.s, r.evs ++ d.evs, r.logs ++ d.logs, d.err, v :: d.processed, d.leftover⟩

/-- Drain loop of _main_loop_tick with an explicit interleaving of
producers: `q` is the queue content when the drain starts and `arr`
schedules, for each successive get_nowait, the batch of commands other
threads enqueue right after it (remaining batches land after the drain
exits).  The loop keeps getting until the queue is observed empty —
there is no snapshot — so a batch that lands before the queue empties
is processed within the same drain. -/
def drainArr (env : Env) : AppState → List PyVal → List (List PyVal) → DrainRes
  | s, q, [] => drainNil env s q
  | s, [], b :: more => ⟨s, [], [], none, [], (b :: more).flatten⟩
  | s, v :: rest, b :: more =>
    let r := applyCmd env s v
    match r.err with
    | some _ => ⟨r.s, r.evs, r.logs, r.err, [v], rest ++ (b :: more).flatten⟩
    | none =>
      let d := drainArr env r.s (rest ++ b) more
      ⟨d.s, r.evs ++ d.evs, r.logs ++ d.logs, d.err, v :: d.processed, d.leftover⟩

/-- Per-frame module step of _main_loop_tick: tick() exactly when an
instance exists and self._executing holds. -/
def tickEvs (s : AppState) : List Event :=
  match s.curInstance with
  | some i => if s.executing then [Event.tickCall i.id] else []
  | none => []

/-- MainApp._main_loop_tick: drain every available command and apply it
in order, then — unless an exception escaped the drain — tick the
module if one is loaded and executing. -/
def mainLoopTick (env : Env) (s : AppState) (q : List PyVal)
    (arr : List (List PyVal)) : DrainRes :=
  let d := drainArr env s q arr
  match d.err with
  | some _ => d
  | none => { d with evs := d.evs ++ tickEvs d.s }

/-- Iterated frame ticks: each element of the schedule gives one tick's
starting queue and its mid-drain arrival batches.  A tick whose drain
raised ends the run (the exception reaches the top-level loop, which
terminates the process). -/
def runTicks (env : Env) :
    AppState → List (List PyVal × List (List PyVal)) →
    AppState × List Event × Option Err
  | s, [] => (s, [], none)
  | s, (q, arr) :: rest =>
    let d := mainLoopTick env s q arr
    match d.err with
    | some e => (d.s, d.evs, some e)
    | none =>
      let k := runTicks env d.s rest
      (k.1, d.evs ++ k.2.1, k.2.2)

/-- ThreadedTCPRequestHandler.handle, for one received line: the line is
read from the socket's binary rfile, stripped as bytes; an empty result
ends the connection, otherwise the bytes object itself is enqueued. -/
def remoteEnqueue (line : String) : List PyVal :=
  let d := pyStrip line
  if d = "" then [] else [PyVal.bytes d]

/-- Module registry with a single well-behaved module `demo`. -/
def regDemo : String → ModSpec :=
  fun n => if n = "demo" then ModSpec.ok else ModSpec.missing

/-- Environment with module `demo` available and no study-config files. -/
def envDemo : Env := ⟨regDemo, fun _ => none, fun _ => none⟩

/-- State after loading `demo` from the initial state. -/
def sDemo : AppState := (load_module envDemo initState "demo").s

/-- State after loading `demo` and starting it (Running). -/
def sDemoRun : AppState := (applyCmd envDemo sDemo (PyVal.str "start")).s

/-- Environment whose working directory holds the Scenario B study
config: first line `demo`, second line `x=5`; plus a second config
exercising several assignments in file order. -/
def envCfg : Env :=
  ⟨regDemo,
    fun n =>
      if n = "study.cfg" then some ["demo", "x=5"]
      else if n = "multi.cfg" then some ["demo", "x=5", "x=7", "y=1"]
      else if n = "blank.cfg" then some ["", "x=9"]
      else none,
    fun _ => none⟩

/-- Boolean membership in a list of identities. -/
def memN (n : Nat) : List Nat → Bool
  | [] => false
  | m :: rest => (m = n) || memN n rest

/-- Checker for the no-orphan-start property: scan an event trace left
to right, accumulate the instance identities whose load completed, and
demand that every start() call is on an identity loaded earlier in the
trace. -/
def loadedBeforeStart : List Nat → List Event → Bool
  | _, [] => true
  | seen, Event.loadedMod n :: rest => loadedBeforeStart (n :: seen) rest
  | seen, Event.startCall n :: rest => memN n seen && loadedBeforeStart seen rest
  | seen, _ :: rest => loadedBeforeStart seen rest

/-- Identities accumulated by the checker after scanning a trace. -/
def seenAfter (seen : List Nat) : List Event → List Nat
  | [] => seen
  | Event.loadedMod n :: rest => seenAfter (n :: seen) rest
  | _ :: rest => seenAfter seen rest

/-- Invariant tying a session state to the checker accumulator: the
identity of any currently owned instance has completed a load. -/
def InvS (seen : List Nat) (s : AppState) : Prop :=
  ∀ i, s.curInstance = some i → memN i.id seen = true

/-
Helper lemmas.  The dispatch lemmas record how the verb chain of
_main_loop_tick routes each concrete command string; they hold for an
arbitrary environment and state because the tested conditions only
inspect the command text.
-/

theorem applyCmd_start_eq (env : Env) (s : AppState) :
    applyCmd env s (PyVal.str "start") = Res.ofPair (start_module s) := rfl

theorem applyCmd_cancel_eq (env : Env) (s : AppState) :
    applyCmd env s (PyVal.str "cancel") = Res.ofPair (cancel_module s) := rfl

theorem applyCmd_stop_eq (env : Env) (s : AppState) :
    applyCmd env s (PyVal.str "stop") = Res.ofPair (cancel_module s) := rfl

theorem applyCmd_prune_eq (env : Env) (s : AppState) :
    applyCmd env s (PyVal.str "prune") = Res.ofPair (prune_module s) := rfl

/-- Claim C1 counterexample: from a Running session (module `demo`
loaded and started), the `prune` command does NOT release the instance
and does not leave the session Unloaded — the instance is still owned,
the very same tick still calls tick() on the pruned instance, and a
subsequent `start` reaches the pruned instance without any new load. -/
theorem c1_counterexample :
    (mainLoopTick envDemo sDemoRun [PyVal.str "prune"] []).s.curInstance
      = some (mkInstance 0)
    ∧ (mainLoopTick envDemo sDemoRun [PyVal.str "prune"] []).evs
      = [Event.pruneCall 0, Event.tickCall 0]
    ∧ (applyCmd envDemo (mainLoopTick envDemo sDemoRun [PyVal.str "prune"] []).s
        (PyVal.str "start")).evs
      = [Event.cancelCall 0, Event.startCall 0] := by decide

/-- Claim C1 (amended): applying `prune` when a module instance exists
invokes the instance's prune() exactly once, but does NOT release the
instance and does not change the session state at all — module,
instance and executing flag are untouched, so subsequent tick() or
start() still reach the pruned instance. -/
theorem c1_prune_keeps_instance (env : Env) (s : AppState) (i : Instance)
    (h : s.curInstance = some i) :
    applyCmd env s (PyVal.str "prune") = ⟨s, [Event.pruneCall i.id], [], none⟩ := by
  rw [applyCmd_prune_eq]
  simp [prune_module, h, Res.ofPair]

/-- Witness for c1_prune_keeps_instance at the concrete Running state. -/
theorem c1_witness :
    applyCmd envDemo sDemoRun (PyVal.str "prune")
      = ⟨sDemoRun, [Event.pruneCall 0], [], none⟩ :=
  c1_prune_keeps_instance envDemo sDemoRun (mkInstance 0) (by decide)

/-- Claim C2 (code bug): over the remote-control protocol the handler
enqueues the raw bytes line, and _main_loop_tick stringifies it with
str(), producing the repr (for example the 12-character text consisting
of `b`, a quote, `load demo`, a quote), which matches none of the
dispatch verbs.  Hence `load demo` followed by `start` leaves the
session in the initial Unloaded state with zero module calls, and a
`cancel` sent while Running (reached via the keyboard path) performs no
cancel() — contradicting the documented protocol. -/
theorem c2_remote_commands_inert :
    (mainLoopTick envDemo initState
        (remoteEnqueue "load demo" ++ remoteEnqueue "start") []).s = initState
    ∧ (mainLoopTick envDemo initState
        (remoteEnqueue "load demo" ++ remoteEnqueue "start") []).evs = []
    ∧ (mainLoopTick envDemo sDemoRun (remoteEnqueue "cancel") []).s = sDemoRun
    ∧ (mainLoopTick envDemo sDemoRun (remoteEnqueue "cancel") []).evs
      = [Event.tickCall 0] := by decide

/-- Claim C4: applying `start` while the session is Running (instance
present, executing flag set) triggers exactly one cancel() call on the
module instance before the next start() call — never a stacked second
start and never a no-op. -/
theorem c4_start_while_running (env : Env) (s : AppState) (i : Instance)
    (hi : s.curInstance = some i) (hr : s.executing = true) :
    applyCmd env s (PyVal.str "start")
      = ⟨{ s with executing := true },
          [Event.cancelCall i.id, Event.startCall i.id], [], none⟩ := by
  rw [applyCmd_start_eq]
  simp [start_module, cancel_module, hi, hr, Res.ofPair]

/-- Witness for c4_start_while_running at the concrete Running state. -/
theorem c4_witness :
    applyCmd envDemo sDemoRun (PyVal.str "start")
      = ⟨{ sDemoRun with executing := true },
          [Event.cancelCall 0, Event.startCall 0], [], none⟩ :=
  c4_start_while_running envDemo sDemoRun (mkInstance 0) (by decide) (by decide)

/-- Claim C6: a `config <name>` whose file resolves neither in the
working directory nor in the configured study path leaves the session
state unchanged, logs an error, performs no module call, and raises
nothing. -/
theorem c6_config_unresolved_noop (env : Env) (s : AppState) (name : String)
    (h1 : env.cwd name = none) (h2 : env.study name = none) :
    load_config env s name = ⟨s, [], [Log.configNotFound name], none⟩ := by
  simp [load_config, resolveFile, h1, h2]

/-- Witness for c6_config_unresolved_noop on a concrete missing file. -/
theorem c6_witness :
    load_config envDemo sDemo "missing.cfg"
      = ⟨sDemo, [], [Log.configNotFound "missing.cfg"], none⟩ :=
  c6_config_unresolved_noop envDemo sDemo "missing.cfg" rfl rfl

/-- Claim C3 counterexample: from a Running session, a `load bad`
command whose module cannot be resolved is NOT non-fatal — the
re-raised exception escapes the whole frame tick (reaching the
top-level loop, which terminates the process), and the prior instance
has already had prune() called on it during the aborted attempt. -/
theorem c3_counterexample :
    (mainLoopTick envDemo sDemoRun [PyVal.str "load bad"] []).err
      = some (Err.moduleNotFound "bad")
    ∧ (mainLoopTick envDemo sDemoRun [PyVal.str "load bad"] []).evs
      = [Event.pruneCall 0] := by decide

/-- Claim C3 (amended): for a `load <name>` whose module cannot be
resolved, the not-found error is logged and the session fields (module,
instance, executing flag) stay exactly as before the attempt, but the
prior instance's prune() has already been invoked and the exception is
re-raised, escaping load_module (fatal when reached from the command
loop; caught only on the `config` path).  When the module imports but
its Main() constructor fails, the current-module field has already been
updated to the new module before the exception escapes. -/
theorem c3_load_failure_behavior (env : Env) (s : AppState) (name : String)
    (hn : 0 < name.length) :
    (env.reg name = ModSpec.missing →
      load_module env s name
        = ⟨s, (prune_module s).2, [Log.moduleNotFound name],
            some (Err.moduleNotFound name)⟩)
    ∧ (env.reg name = ModSpec.constructFails →
      load_module env s name
        = ⟨{ s with curModule := some name }, (prune_module s).2, [],
            some (Err.constructError name)⟩) := by
  constructor <;> intro h <;>
    cases hc : s.curInstance <;>
      simp [load_module, prune_module, hn, h, hc]

/-- Witness for c3_load_failure_behavior: loading the unresolvable
module `bad` from the Running demo session. -/
theorem c3_witness :
    load_module envDemo sDemoRun "bad"
      = ⟨sDemoRun, [Event.pruneCall 0], [Log.moduleNotFound "bad"],
          some (Err.moduleNotFound "bad")⟩ :=
  (c3_load_failure_behavior envDemo sDemoRun "bad" (by decide)).1 (by decide)

/-- Claim C7: loading the Scenario B study config (first line `demo`,
second line `x=5`) loads module demo, leaves its instance attribute x
equal to 5, raises nothing, and performs exactly the load; remaining
lines apply in file order, as the multi-assignment config (x=5 then
x=7 then y=1) shows. -/
theorem c7_config_scenario :
    (load_config envCfg initState "study.cfg").s.curModule = some "demo"
    ∧ ((load_config envCfg initState "study.cfg").s.curInstance.map
        (fun i => i.attrs.lookup "x")) = some (some (Lit.int 5))
    ∧ (load_config envCfg initState "study.cfg").err = none
    ∧ (load_config envCfg initState "study.cfg").evs = [Event.loadedMod 0]
    ∧ ((load_config envCfg initState "multi.cfg").s.curInstance.map
        (fun i => (i.attrs.lookup "x", i.attrs.lookup "y")))
      = some (some (Lit.int 7), some (Lit.int 1)) := by decide

/-- Frame property of the config assignment loop: exec'ing lines into
the instance namespace never changes the module field, the instance
identity, the executing flag, or the allocation counter. -/
theorem execLines_frame (ls : List String) (s : AppState) :
    (execLines s ls).1.curModule = s.curModule
    ∧ (execLines s ls).1.curInstance.map (fun i => i.id)
        = s.curInstance.map (fun i => i.id)
    ∧ (execLines s ls).1.executing = s.executing
    ∧ (execLines s ls).1.nextId = s.nextId := by
  induction ls generalizing s with
  | nil => simp [execLines]
  | cons line rest ih =>
    cases hc : s.curInstance with
    | none => simp [execLines, hc]
    | some i =>
      cases ha : execAssigns line i.attrs with
      | none => simp [execLines, hc, ha]
      | some a =>
        have h' := ih { s with curInstance := some { i with attrs := a } }
        simpa [execLines, hc, ha] using h'

/-- Claim C9: a `load` whose argument text is empty is a complete
no-op (no prune of the prior instance, no state change, no events, no
exception); likewise a `config` whose resolved file has a blank first
line changes neither the current module, nor the instance identity,
nor the executing flag, performs no module call, and raises nothing. -/
theorem c9_empty_load_noop :
    (∀ (env : Env) (s : AppState), load_module env s "" = Res.noop s)
    ∧ (∀ (env : Env) (s : AppState) (name : String) (lines : List String),
        resolveFile env name = some lines →
        pyStrip (lines.headD "") = "" →
        (load_config env s name).s.curModule = s.curModule
        ∧ (load_config env s name).s.curInstance.map (fun i => i.id)
            = s.curInstance.map (fun i => i.id)
        ∧ (load_config env s name).s.executing = s.executing
        ∧ (load_config env s name).evs = []
        ∧ (load_config env s name).err = none) := by
  constructor
  · intro env s
    simp [load_module, Res.noop]
  · intro env s name lines hres hblank
    have hnoop : load_module env s (pyStrip (lines.headD "")) = Res.noop s := by
      rw [hblank]; simp [load_module, Res.noop]
    have hf := execLines_frame lines.tail s
    simp only [load_config, hres, hnoop, Res.noop]
    exact ⟨hf.1, hf.2.1, hf.2.2.1, trivial, trivial⟩

/-- Witness for c9_empty_load_noop: the empty-name load on the demo
session, and the blank-first-line config file (which still leaves the
module, instance identity and executing flag of the demo session
untouched). -/
theorem c9_witness :
    load_module envDemo sDemo "" = Res.noop sDemo
    ∧ (load_config envCfg sDemo "blank.cfg").s.curInstance.map (fun i => i.id)
        = sDemo.curInstance.map (fun i => i.id)
    ∧ (load_config envCfg sDemo "blank.cfg").evs = [] :=
  ⟨c9_empty_load_noop.1 envDemo sDemo,
    (c9_empty_load_noop.2 envCfg sDemo "blank.cfg" ["", "x=9"] rfl (by decide)).2.1,
    (c9_empty_load_noop.2 envCfg sDemo "blank.cfg" ["", "x=9"] rfl (by decide)).2.2.2.1⟩

/-- Claim C10: the `setup` handler never lets an exception escape the
frame loop — on any failure of the assignment (including the case
where no instance is loaded at all, where evaluating the instance
namespace itself raises) the command is a silent no-op, and even on
success the module field, the instance identity and the executing flag
are unchanged, with zero module calls. -/
theorem c10_setup_never_throws (s : AppState) (arg : String) :
    (setupCmd s arg).err = none
    ∧ (setupCmd s arg).evs = []
    ∧ (s.curInstance = none → setupCmd s arg = Res.noop s)
    ∧ (∀ i, s.curInstance = some i → execAssigns arg i.attrs = none →
        setupCmd s arg = Res.noop s)
    ∧ (setupCmd s arg).s.curModule = s.curModule
    ∧ (setupCmd s arg).s.curInstance.map (fun i => i.id)
        = s.curInstance.map (fun i => i.id)
    ∧ (setupCmd s arg).s.executing = s.executing := by
  cases hc : s.curInstance with
  | none => simp [setupCmd, hc, Res.noop]
  | some i =>
    cases ha : execAssigns arg i.attrs with
    | none => simp [setupCmd, hc, ha, Res.noop]
    | some a => simp [setupCmd, hc, ha, Res.noop]

/-- Witness for c10_setup_never_throws: a setup with no instance loaded
and a malformed setup against the loaded demo session are both silent
no-ops. -/
theorem c10_witness :
    (setupCmd initState "x=1").err = none
    ∧ setupCmd initState "x=1" = Res.noop initState
    ∧ setupCmd sDemo "launch()" = Res.noop sDemo :=
  ⟨(c10_setup_never_throws initState "x=1").1,
    (c10_setup_never_throws initState "x=1").2.2.1 rfl,
    (c10_setup_never_throws sDemo "launch()").2.2.2.1 (mkInstance 0) (by decide)
      (by decide)⟩

/-- Conservation of commands through the interleaving-free drain loop:
every command is either applied or left in the queue, in order. -/
theorem drainNil_conserve (env : Env) (q : List PyVal) (s : AppState) :
    (drainNil env s q).processed ++ (drainNil env s q).leftover = q := by
  induction q generalizing s with
  | nil => simp [drainNil]
  | cons v rest ih =>
    cases he : (applyCmd env s v).err with
    | some e => simp [drainNil, he]
    | none => simp [drainNil, he, ih]

/-- Claim C8 counterexample: the drain is NOT a snapshot.  Starting the
drain with the queue holding only `start`, a `cancel` enqueued right
after the first get_nowait (i.e., after the drain has begun) is applied
within the current tick's drain: both commands are processed and the
cancelCall lands in this tick's event trace. -/
theorem c8_counterexample :
    (drainArr envDemo sDemo [PyVal.str "start"] [[PyVal.str "cancel"]]).evs
      = [Event.startCall 0, Event.cancelCall 0]
    ∧ (drainArr envDemo sDemo [PyVal.str "start"] [[PyVal.str "cancel"]]).processed
      = [PyVal.str "start", PyVal.str "cancel"] := by decide

/-- Claim C8 (amended): the drain loop keeps taking commands until the
queue is observed empty, so a command enqueued after the drain has
begun may be applied within the current tick (when it lands before the
queue empties) or deferred to a later tick — but it is never dropped:
for every interleaving schedule, the commands the drain applied
followed by the queue content it left behind are exactly the starting
queue plus all mid-drain arrivals. -/
theorem c8_drain_conservation (env : Env) (arr : List (List PyVal))
    (s : AppState) (q : List PyVal) :
    (drainArr env s q arr).processed ++ (drainArr env s q arr).leftover
      = q ++ arr.flatten := by
  induction arr generalizing s q with
  | nil => simp [drainArr, drainNil_conserve]
  | cons b more ih =>
    cases q with
    | nil => simp [drainArr]
    | cons v rest =>
      cases he : (applyCmd env s v).err with
      | some e => simp [drainArr, he]
      | none => simp [drainArr, he, ih]

/-
Lemma chain for the no-orphan-start invariant (claim C5): the checker
distributes over trace concatenation, every embedded operation emits a
checker-clean trace while preserving the invariant, and this lifts
through drains, ticks and multi-tick runs.
-/

theorem seenAfter_append (a b : List Event) (seen : List Nat) :
    seenAfter seen (a ++ b) = seenAfter (seenAfter seen a) b := by
  induction a generalizing seen with
  | nil => simp [seenAfter]
  | cons e rest ih => cases e <;> simp [seenAfter, ih]

theorem lbs_append (a b : List Event) (seen : List Nat) :
    loadedBeforeStart seen (a ++ b)
      = (loadedBeforeStart seen a && loadedBeforeStart (seenAfter seen a) b) := by
  induction a generalizing seen with
  | nil => simp [loadedBeforeStart, seenAfter]
  | cons e rest ih =>
    cases e <;> simp [loadedBeforeStart, seenAfter, ih, Bool.and_assoc]

theorem memN_seenAfter (evs : List Event) (seen : List Nat) (n : Nat)
    (h : memN n seen = true) : memN n (seenAfter seen evs) = true := by
  induction evs generalizing seen with
  | nil => simpa [seenAfter] using h
  | cons e rest ih =>
    cases e with
    | loadedMod m => exact ih (m :: seen) (by simp [memN, h])
    | startCall m => simpa [seenAfter] using ih seen h
    | cancelCall m => simpa [seenAfter] using ih seen h
    | pruneCall m => simpa [seenAfter] using ih seen h
    | tickCall m => simpa [seenAfter] using ih seen h

theorem InvS_same {seen : List Nat} {s s' : AppState}
    (hinst : s'.curInstance = s.curInstance) (h : InvS seen s) : InvS seen s' :=
  fun i hi => h i (by rw [← hinst]; exact hi)

theorem InvS_of_id_map {seen : List Nat} {s s' : AppState}
    (hm : s'.curInstance.map (fun i => i.id) = s.curInstance.map (fun i => i.id))
    (h : InvS seen s) : InvS seen s' := by
  intro i hi
  rw [hi] at hm
  cases hc : s.curInstance with
  | none => rw [hc] at hm; simp at hm
  | some j =>
    rw [hc] at hm
    simp at hm
    rw [hm]
    exact h j hc

theorem lbs_start_module (seen : List Nat) (s : AppState) (h : InvS seen s) :
    loadedBeforeStart seen (start_module s).2 = true
    ∧ InvS (seenAfter seen (start_module s).2) (start_module s).1 := by
  cases hc : s.curInstance with
  | none =>
    refine ⟨by simp [start_module, hc, loadedBeforeStart], ?_⟩
    simpa [start_module, hc, seenAfter] using h
  | some i =>
    have hm : memN i.id seen = true := h i hc
    cases hx : s.executing with
    | true =>
      refine ⟨by simp [start_module, cancel_module, hc, hx, loadedBeforeStart, hm], ?_⟩
      intro j hj
      simp [start_module, cancel_module, hc, hx, seenAfter] at hj ⊢
      rw [← hj]
      exact hm
    | false =>
      refine ⟨by simp [start_module, cancel_module, hc, hx, loadedBeforeStart, hm], ?_⟩
      intro j hj
      simp [start_module, cancel_module, hc, hx, seenAfter] at hj ⊢
      rw [← hj]
      exact hm

theorem lbs_cancel_module (seen : List Nat) (s : AppState) (h : InvS seen s) :
    loadedBeforeStart seen (cancel_module s).2 = true
    ∧ InvS (seenAfter seen (cancel_module s).2) (cancel_module s).1 := by
  cases hc : s.curInstance with
  | none =>
    refine ⟨by simp [cancel_module, hc, loadedBeforeStart], ?_⟩
    simpa [cancel_module, hc, seenAfter, InvS] using fun i hi => h i hi
  | some i =>
    cases hx : s.executing with
    | true =>
      refine ⟨by simp [cancel_module, hc, hx, loadedBeforeStart], ?_⟩
      simpa [cancel_module, hc, hx, seenAfter, InvS] using fun i hi => h i hi
    | false =>
      refine ⟨by simp [cancel_module, hc, hx, loadedBeforeStart], ?_⟩
      simpa [cancel_module, hc, hx, seenAfter, InvS] using fun i hi => h i hi

theorem lbs_prune_module (seen : List Nat) (s : AppState) (h : InvS seen s) :
    loadedBeforeStart seen (prune_module s).2 = true
    ∧ InvS (seenAfter seen (prune_module s).2) (prune_module s).1 := by
  cases hc : s.curInstance with
  | none =>
    refine ⟨by simp [prune_module, hc, loadedBeforeStart], ?_⟩
    simpa [prune_module, hc, seenAfter] using h
  | some i =>
    refine ⟨by simp [prune_module, hc, loadedBeforeStart], ?_⟩
    simpa [prune_module, hc, seenAfter] using h

theorem lbs_load_module (env : Env) (seen : List Nat) (s : AppState)
    (name : String) (h : InvS seen s) :
    loadedBeforeStart seen (load_module env s name).evs = true
    ∧ InvS (seenAfter seen (load_module env s name).evs)
        (load_module env s name).s := by
  by_cases hn : 0 < name.length
  · cases hr : env.reg name with
    | missing =>
      cases hc : s.curInstance with
      | none =>
        refine ⟨by simp [load_module, hn, hr, hc, loadedBeforeStart], ?_⟩
        simpa [load_module, hn, hr, hc, seenAfter] using h
      | some i =>
        refine ⟨by simp [load_module, prune_module, hn, hr, hc, loadedBeforeStart], ?_⟩
        simpa [load_module, prune_module, hn, hr, hc, seenAfter] using h
    | constructFails =>
      cases hc : s.curInstance with
      | none =>
        refine ⟨by simp [load_module, hn, hr, hc, loadedBeforeStart], ?_⟩
        simpa [load_module, hn, hr, hc, seenAfter, InvS] using fun i hi => h i hi
      | some i =>
        refine ⟨by simp [load_module, prune_module, hn, hr, hc, loadedBeforeStart], ?_⟩
        simpa [load_module, prune_module, hn, hr, hc, seenAfter, InvS]
          using fun i hi => h i hi
    | ok =>
      cases hc : s.curInstance with
      | none =>
        refine ⟨by simp [load_module, hn, hr, hc, loadedBeforeStart], ?_⟩
        intro j hj
        simp [load_module, hn, hr, hc, seenAfter, mkInstance] at hj ⊢
        simp [← hj, memN]
      | some i =>
        refine ⟨by simp [load_module, prune_module, hn, hr, hc, loadedBeforeStart], ?_⟩
        intro j hj
        simp [load_module, prune_module, hn, hr, hc, seenAfter, mkInstance] at hj ⊢
        simp [← hj, memN]
  · refine ⟨by simp [load_module, hn, Res.noop, loadedBeforeStart], ?_⟩
    simpa [load_module, hn, Res.noop, seenAfter] using h

theorem lbs_setupCmd (seen : List Nat) (s : AppState) (arg : String)
    (h : InvS seen s) :
    (setupCmd s arg).evs = [] ∧ InvS seen (setupCmd s arg).s := by
  cases hc : s.curInstance with
  | none =>
    exact ⟨by simp [setupCmd, hc, Res.noop],
      by simpa [setupCmd, hc, Res.noop] using h⟩
  | some i =>
    cases ha : execAssigns arg i.attrs with
    | none =>
      exact ⟨by simp [setupCmd, hc, ha, Res.noop],
        by simpa [setupCmd, hc, ha, Res.noop] using h⟩
    | some a =>
      refine ⟨by simp [setupCmd, hc, ha], ?_⟩
      intro j hj
      simp [setupCmd, hc, ha] at hj
      rw [← hj]
      exact h i hc

theorem lbs_load_config (env : Env) (seen : List Nat) (s : AppState)
    (name : String) (h : InvS seen s) :
    loadedBeforeStart seen (load_config env s name).evs = true
    ∧ InvS (seenAfter seen (load_config env s name).evs)
        (load_config env s name).s := by
  cases hres : resolveFile env name with
  | none =>
    refine ⟨by simp [load_config, hres, loadedBeforeStart], ?_⟩
    simpa [load_config, hres, seenAfter] using h
  | some lines =>
    obtain ⟨hl, hi⟩ := lbs_load_module env seen s (pyStrip (lines.headD "")) h
    cases herr : (load_module env s (pyStrip (lines.headD ""))).err with
    | some e =>
      refine ⟨?_, ?_⟩ <;> simp only [load_config, hres, herr]
      · exact hl
      · exact hi
    | none =>
      have hf := execLines_frame lines.tail (load_module env s (pyStrip (lines.headD ""))).s
      have hinv := InvS_of_id_map hf.2.1 hi
      refine ⟨?_, ?_⟩ <;> simp only [load_config, hres, herr]
      · exact hl
      · exact hinv

theorem lbs_applyCmd (env : Env) (seen : List Nat) (s : AppState) (v : PyVal)
    (h : InvS seen s) :
    loadedBeforeStart seen (applyCmd env s v).evs = true
    ∧ InvS (seenAfter seen (applyCmd env s v).evs) (applyCmd env s v).s := by
  simp only [applyCmd]
  split_ifs with h1 h2 h3 h4 h5 h6 h7
  · exact lbs_start_module seen s h
  · exact lbs_cancel_module seen s h
  · exact lbs_prune_module seen s h
  · exact lbs_load_module env seen s _ h
  · obtain ⟨he, hi⟩ := lbs_setupCmd seen s (pyDrop (pyStrip (pyStr v)) 6) h
    rw [he]
    exact ⟨rfl, hi⟩
  · exact lbs_load_config env seen s _ h
  · exact lbs_load_config env seen s _ h
  · exact ⟨by simp [Res.noop, loadedBeforeStart],
      by simpa [Res.noop, seenAfter] using h⟩

theorem lbs_drainNil (env : Env) (q : List PyVal) (seen : List Nat)
    (s : AppState) (h : InvS seen s) :
    loadedBeforeStart seen (drainNil env s q).evs = true
    ∧ InvS (seenAfter seen (drainNil env s q).evs) (drainNil env s q).s := by
  induction q generalizing seen s with
  | nil =>
    exact ⟨by simp [drainNil, loadedBeforeStart],
      by simpa [drainNil, seenAfter] using h⟩
  | cons v rest ih =>
    obtain ⟨hl, hi⟩ := lbs_applyCmd env seen s v h
    cases he : (applyCmd env s v).err with
    | some e =>
      constructor
      · simpa [drainNil, he] using hl
      · simpa [drainNil, he] using hi
    | none =>
      obtain ⟨hl2, hi2⟩ :=
        ih (seenAfter seen (applyCmd env s v).evs) (applyCmd env s v).s hi
      constructor
      · simp [drainNil, he, lbs_append, hl, hl2]
      · simpa [drainNil, he, seenAfter_append] using hi2

theorem lbs_drainArr (env : Env) (arr : List (List PyVal)) (q : List PyVal)
    (seen : List Nat) (s : AppState) (h : InvS seen s) :
    loadedBeforeStart seen (drainArr env s q arr).evs = true
    ∧ InvS (seenAfter seen (drainArr env s q arr).evs) (drainArr env s q arr).s := by
  induction arr generalizing q seen s with
  | nil => simpa [drainArr] using lbs_drainNil env q seen s h
  | cons b more ih =>
    cases q with
    | nil =>
      exact ⟨by simp [drainArr, loadedBeforeStart],
        by simpa [drainArr, seenAfter] using h⟩
    | cons v rest =>
      obtain ⟨hl, hi⟩ := lbs_applyCmd env seen s v h
      cases he : (applyCmd env s v).err with
      | some e =>
        constructor
        · simpa [drainArr, he] using hl
        · simpa [drainArr, he] using hi
      | none =>
        obtain ⟨hl2, hi2⟩ :=
          ih (rest ++ b) (seenAfter seen (applyCmd env s v).evs) (applyCmd env s v).s hi
        constructor
        · simp [drainArr, he, lbs_append, hl, hl2]
        · simpa [drainArr, he, seenAfter_append] using hi2

theorem lbs_tickEvs (seen : List Nat) (s : AppState) :
    loadedBeforeStart seen (tickEvs s) = true ∧ seenAfter seen (tickEvs s) = seen := by
  cases hc : s.curInstance with
  | none => simp [tickEvs, hc, loadedBeforeStart, seenAfter]
  | some i =>
    cases hx : s.executing <;>
      simp [tickEvs, hc, hx, loadedBeforeStart, seenAfter]

theorem lbs_mainLoopTick (env : Env) (seen : List Nat) (s : AppState)
    (q : List PyVal) (arr : List (List PyVal)) (h : InvS seen s) :
    loadedBeforeStart seen (mainLoopTick env s q arr).evs = true
    ∧ InvS (seenAfter seen (mainLoopTick env s q arr).evs)
        (mainLoopTick env s q arr).s := by
  obtain ⟨hl, hi⟩ := lbs_drainArr env arr q seen s h
  cases he : (drainArr env s q arr).err with
  | some e =>
    constructor
    · simpa [mainLoopTick, he] using hl
    · simpa [mainLoopTick, he] using hi
  | none =>
    obtain ⟨ht, hs⟩ :=
      lbs_tickEvs (seenAfter seen (drainArr env s q arr).evs) (drainArr env s q arr).s
    constructor
    · simp [mainLoopTick, he, lbs_append, hl, ht]
    · simp only [mainLoopTick, he]
      simpa [seenAfter_append, hs] using hi

theorem lbs_runTicks (env : Env) (sched : List (List PyVal × List (List PyVal)))
    (seen : List Nat) (s : AppState) (h : InvS seen s) :
    loadedBeforeStart seen (runTicks env s sched).2.1 = true := by
  induction sched generalizing seen s with
  | nil => simp [runTicks, loadedBeforeStart]
  | cons p rest ih =>
    obtain ⟨q, arr⟩ := p
    obtain ⟨hl, hi⟩ := lbs_mainLoopTick env seen s q arr h
    cases he : (mainLoopTick env s q arr).err with
    | some e => simpa [runTicks, he] using hl
    | none =>
      have h2 := ih (seenAfter seen (mainLoopTick env s q arr).evs)
        (mainLoopTick env s q arr).s hi
      simp [runTicks, he, lbs_append, hl, h2]

/-- Claim C5: for every multi-tick run from the initial Unloaded state —
over any environment, any schedule of queued commands and any mid-drain
arrival interleavings — every start() call in the event trace is on an
instance whose load completed earlier in the trace (no orphan starts);
in particular, a tick draining `start`, `prune`, `cancel` with nothing
ever loaded performs zero module instance calls and leaves the state
untouched. -/
theorem c5_no_orphan_start :
    (∀ (env : Env) (sched : List (List PyVal × List (List PyVal))),
      loadedBeforeStart [] (runTicks env initState sched).2.1 = true)
    ∧ (∀ env : Env,
        mainLoopTick env initState
            [PyVal.str "start", PyVal.str "prune", PyVal.str "cancel"] []
          = ⟨initState, [], [], none,
              [PyVal.str "start", PyVal.str "prune", PyVal.str "cancel"], []⟩) :=
  ⟨fun env sched =>
    lbs_runTicks env sched [] initState (by intro i hi; simp [initState] at hi),
   fun env => rfl⟩

end Launcher
